import Mathlib

/-!
# Verification of the agent-orchestration core

Shallow embedding of the two subsystems of this repository that the claims
are about:

* `backend/services/agent_registry.py` — the `AgentRegistry` service with its
  `AgentMetadata` records, status state machine, task-execution bookkeeping,
  load balancing, stale-agent cleanup and health-check sweep;
* `backend/services/message_bus.py` — the `MessageContent` wire envelope with
  its `to_dict` / `from_dict` serialization, and the request/response pattern
  of `MessageBus.request`.

Modelling conventions:

* Python `datetime` values and wall-clock durations are modelled as rationals
  (`ℚ`, seconds since epoch / seconds).  `datetime.isoformat` and
  `datetime.fromisoformat` are mutually inverse bijections at `datetime`
  precision, so the ISO-8601 string on the wire is represented by the
  timestamp itself.
* `uuid.uuid4()` is a fresh-name supply: the registry carries a `next_uuid`
  counter and ids are naturals.  The freshness the code relies on (uuid4
  collisions never happen) is made explicit as the invariant that every
  stored id is below the counter.
* Python dicts are insertion-ordered association lists; inserting a fresh key
  appends, updating a value in place keeps the position (as CPython does).
* Effects of the outside world (what an agent's `execute_task` or
  `health_check` does, how long it takes, what a `request` call observes) are
  oracle parameters of the embedded operations.
* Status-change callbacks (`_status_callbacks`) are observers: the code
  catches every exception they raise and they are not given a mutation role
  by the spec, so the embedding elides them.  Resource-usage snapshot fields
  (`cpu_usage`, `memory_usage`, `disk_usage`) and the `requirements`/`config`
  mappings are carried verbatim by the source, touched by no claim, and
  omitted here.
-/

/-- `datetime` values, as rational seconds since the epoch.  ISO-8601
serialization of Python datetimes is lossless, so the wire representation is
identified with the value. -/
abbrev DateTime := ℚ

/-- `AgentStatus` enumeration (`agent_registry.py`). -/
inductive AgentStatus
  | initializing
  | running
  | idle
  | busy
  | error
  | stopping
  | stopped
  | maintenance
deriving DecidableEq, Repr

/-- `AgentType` enumeration (`agent_registry.py`). -/
inductive AgentType
  | code_analysis
  | test_generation
  | security_scanning
  | performance_analysis
  | documentation
  | quality_assessment
  | deployment
  | monitoring
  | custom
deriving DecidableEq, Repr

/-- `AgentMetadata` dataclass (`agent_registry.py`): identity, status and the
performance counters. -/
structure AgentMetadata where
  agent_id : Nat
  name : String
  agent_type : AgentType
  version : String
  description : String
  capabilities : List String
  created_at : DateTime
  updated_at : DateTime
  status : AgentStatus
  total_executions : Nat
  successful_executions : Nat
  failed_executions : Nat
  average_execution_time : ℚ
  last_execution_time : Option DateTime
deriving DecidableEq, Repr

/-- `success_rate` as computed in `AgentMetadata.to_dict` and in
`AgentRegistry.health_check`:
`(successful_executions / max(1, total_executions)) * 100`. -/
def AgentMetadata.success_rate (a : AgentMetadata) : ℚ :=
  ((a.successful_executions : ℚ) / ((max 1 a.total_executions : Nat) : ℚ)) * 100

/-- A duck-typed agent instance as probed by `register_agent` (`getattr` with
defaults) and `execute_agent_task` (`hasattr(instance, 'execute_task')`).
`none` for an optional attribute means the attribute is absent. -/
structure AgentInstance where
  name : Option String
  agent_type : Option AgentType
  version : Option String
  description : Option String
  capabilities : Option (List String)
  has_execute_task : Bool
deriving DecidableEq, Repr

/-- `AgentRegistry` state: the `_agents` dict, the `_agent_instances` dict
(both insertion-ordered association lists keyed by agent id) and the uuid4
fresh-name supply. -/
structure AgentRegistry where
  agents : List (Nat × AgentMetadata)
  instances : List (Nat × AgentInstance)
  next_uuid : Nat
deriving Repr

/-- Python `dict.get` on an insertion-ordered association list. -/
def dictGet {β : Type} (k : Nat) : List (Nat × β) → Option β
  | [] => none
  | p :: rest => if p.1 = k then some p.2 else dictGet k rest

/-- In-place update of the value stored under a key (keeps dict order, as
CPython does for an existing key). -/
def dictModify {β : Type} (k : Nat) (f : β → β) (l : List (Nat × β)) :
    List (Nat × β) :=
  l.map fun p => if p.1 = k then (p.1, f p.2) else p

/-- Apply an in-place mutation to one agent's metadata. -/
def AgentRegistry.modifyAgent (r : AgentRegistry) (agent_id : Nat)
    (f : AgentMetadata → AgentMetadata) : AgentRegistry :=
  { r with agents := dictModify agent_id f r.agents }

/-- `AgentRegistry.update_agent_status` (without the optional extra-metadata
merge, which no claim exercises): if the id is unknown the call is a no-op,
otherwise it sets `status` and `updated_at`.  Status callbacks are observers
(their exceptions are caught by the source) and are elided. -/
def AgentRegistry.update_agent_status (r : AgentRegistry) (agent_id : Nat)
    (status : AgentStatus) (now : DateTime) : AgentRegistry :=
  if (dictGet agent_id r.agents).isSome then
    r.modifyAgent agent_id fun a => { a with status := status, updated_at := now }
  else r

/-- `AgentRegistry.register_agent`: draw a fresh uuid, build `AgentMetadata`
from agent-exposed attributes with `getattr` defaults, store metadata and
instance, then transition the new agent to `RUNNING`.  Returns the id and the
new state. -/
def AgentRegistry.register_agent (r : AgentRegistry) (inst : AgentInstance)
    (now : DateTime) : Nat × AgentRegistry :=
  let agent_id := r.next_uuid
  let metadata : AgentMetadata :=
    { agent_id := agent_id
      name := inst.name.getD ("Agent-" ++ toString agent_id)
      agent_type := inst.agent_type.getD AgentType.custom
      version := inst.version.getD "1.0.0"
      description := inst.description.getD "Unspecified agent"
      capabilities := inst.capabilities.getD []
      created_at := now
      updated_at := now
      status := AgentStatus.initializing
      total_executions := 0
      successful_executions := 0
      failed_executions := 0
      average_execution_time := 0
      last_execution_time := none }
  let r1 : AgentRegistry :=
    { r with
      agents := r.agents ++ [(agent_id, metadata)]
      instances := r.instances ++ [(agent_id, inst)]
      next_uuid := r.next_uuid + 1 }
  (agent_id, r1.update_agent_status agent_id AgentStatus.running now)

/-- `AgentRegistry.unregister_agent`: returns `false` and leaves the state
alone for an unknown id; otherwise pops the agent from both dicts.  (The
preceding `stop_agent` call mutates only the status of the very entry that is
popped right after, so it has no effect on the resulting state.) -/
def AgentRegistry.unregister_agent (r : AgentRegistry) (agent_id : Nat) :
    Bool × AgentRegistry :=
  if (dictGet agent_id r.agents).isSome then
    (true,
      { r with
        agents := r.agents.filter fun p => p.1 ≠ agent_id
        instances := r.instances.filter fun p => p.1 ≠ agent_id })
  else (false, r)

/-- The result envelope returned by `execute_agent_task`.  The success
envelope carries `result` and no `error` key; the failure envelope carries
`error` and no `result` key. -/
structure TaskEnvelope where
  success : Bool
  agent_id : Nat
  task_type : String
  execution_time : ℚ
  result : Option String
  error : Option String
  timestamp : DateTime
deriving DecidableEq, Repr

/-- `AgentRegistry.execute_agent_task`.  The behaviour of the agent's
`execute_task` coroutine is an oracle: `task_result` is what the call would
do (`.ok result` or `.error message` when it raises) and `execution_time` is
the wall-clock duration `time.time() - start_time` observed for the attempt.

Mirrors the source: raises `ValueError` (`.error`) for an unknown agent id or
missing instance; sets the agent `BUSY`; runs the task (an instance without
an `execute_task` attribute raises `NotImplementedError` *inside* the `try`,
so it is handled by the failure path); on success bumps `total_executions`
and `successful_executions`, recomputes the incremental mean, sets
`last_execution_time` and goes back to `IDLE`; on any exception bumps
`total_executions` and `failed_executions` only and goes back to `IDLE`.
Either way the returned envelope is `.ok`. -/
def AgentRegistry.execute_agent_task (r : AgentRegistry) (agent_id : Nat)
    (task_type : String) (task_result : Except String String)
    (execution_time : ℚ) (now : DateTime) :
    Except String (TaskEnvelope × AgentRegistry) :=
  match dictGet agent_id r.agents with
  | none => Except.error ("Agent not found: " ++ toString agent_id)
  | some _ =>
    match dictGet agent_id r.instances with
    | none => Except.error ("Agent instance not found: " ++ toString agent_id)
    | some inst =>
      let r1 := r.update_agent_status agent_id AgentStatus.busy now
      let attempt : Except String String :=
        if inst.has_execute_task then task_result
        else Except.error
          ("Agent " ++ toString agent_id ++ " does not implement execute_task")
      match attempt with
      | Except.ok result =>
        let r2 := r1.modifyAgent agent_id fun a =>
          let n := a.total_executions + 1
          { a with
            total_executions := n
            successful_executions := a.successful_executions + 1
            average_execution_time :=
              (a.average_execution_time * ((n - 1 : Nat) : ℚ) + execution_time)
                / (n : ℚ)
            last_execution_time := some now }
        let r3 := r2.update_agent_status agent_id AgentStatus.idle now
        Except.ok
          ({ success := true, agent_id := agent_id, task_type := task_type,
             execution_time := execution_time, result := some result,
             error := none, timestamp := now }, r3)
      | Except.error e =>
        let r2 := r1.modifyAgent agent_id fun a =>
          { a with
            total_executions := a.total_executions + 1
            failed_executions := a.failed_executions + 1 }
        let r3 := r2.update_agent_status agent_id AgentStatus.idle now
        Except.ok
          ({ success := false, agent_id := agent_id, task_type := task_type,
             execution_time := execution_time, result := none,
             error := some e, timestamp := now }, r3)

/-- The healthy statuses of `get_healthy_agents`. -/
def healthy_statuses : List AgentStatus :=
  [AgentStatus.running, AgentStatus.idle, AgentStatus.busy]

/-- `AgentRegistry.get_healthy_agents`: the agents (in registration order),
optionally restricted to one type, whose status is `RUNNING`, `IDLE` or
`BUSY`. -/
def AgentRegistry.get_healthy_agents (r : AgentRegistry)
    (agent_type : Option AgentType) : List AgentMetadata :=
  let agents : List AgentMetadata := r.agents.map Prod.snd
  let agents : List AgentMetadata :=
    match agent_type with
    | some ty => agents.filter fun a => a.agent_type == ty
    | none => agents
  agents.filter fun a => healthy_statuses.contains a.status

/-- The ascending-load order used by `get_load_balanced_agent`: Python's
stable `list.sort` with key tuple `(total_executions, average_execution_time)`
compares keys lexicographically. -/
def loadLE (a b : AgentMetadata) : Prop :=
  a.total_executions < b.total_executions ∨
    (a.total_executions = b.total_executions ∧
      a.average_execution_time ≤ b.average_execution_time)

instance : DecidableRel loadLE := fun a b => by
  unfold loadLE; infer_instance

/-- `AgentRegistry.get_load_balanced_agent`: restrict to the healthy agents
of the requested type, stable-sort them ascending by
`(total_executions, average_execution_time)` and return the first id, or
`none` when no healthy agent of that type exists. -/
def AgentRegistry.get_load_balanced_agent (r : AgentRegistry)
    (agent_type : AgentType) : Option Nat :=
  let available := r.get_healthy_agents (some agent_type)
  ((available.insertionSort loadLE).head?).map AgentMetadata.agent_id

/-- The staleness test of `cleanup_stale_agents`: the agent has a
`last_execution_time` and `(current_time - last).total_seconds()` exceeds the
threshold.  Agents that never executed a task are not stale. -/
def isStale (stale_threshold : ℚ) (now : DateTime) (a : AgentMetadata) : Bool :=
  match a.last_execution_time with
  | some t => decide (now - t > stale_threshold)
  | none => false

/-- `AgentRegistry.cleanup_stale_agents`: collect the stale agents, then
`unregister_agent` each of them. -/
def AgentRegistry.cleanup_stale_agents (r : AgentRegistry)
    (stale_threshold : ℚ) (now : DateTime) : AgentRegistry :=
  let stale := r.agents.filter fun p => isStale stale_threshold now p.2
  stale.foldl (fun acc p => (acc.unregister_agent p.1).2) r

/-- What one agent's `health_check()` call does during the sweep, as an
oracle: the instance may be missing or lack the attribute (`noHealthCheck`),
return a truthy result, return a falsy result, or raise. -/
inductive HealthOutcome
  | noHealthCheck
  | healthy
  | unhealthy
  | raises
deriving DecidableEq, Repr

/-- A `HealthOutcome` that demotes a `RUNNING` agent: the `health_check`
returned a falsy value or raised. -/
def HealthOutcome.bad : HealthOutcome → Bool
  | HealthOutcome.unhealthy => true
  | HealthOutcome.raises => true
  | _ => false

/-- One iteration of the `_perform_health_checks` loop body for one agent:
on a falsy result — or an exception — the agent is flagged `ERROR`, but only
when its current status is `RUNNING`. -/
def AgentRegistry.health_check_step (r : AgentRegistry) (agent_id : Nat)
    (h : HealthOutcome) (now : DateTime) : AgentRegistry :=
  match dictGet agent_id r.agents with
  | none => r
  | some a =>
    if h.bad ∧ a.status = AgentStatus.running then
      r.update_agent_status agent_id AgentStatus.error now
    else r

/-- `AgentRegistry._perform_health_checks`: sweep over the registered agents
in dict order, where `oracle id` is what that agent's `health_check()` does
on this sweep. -/
def AgentRegistry.perform_health_checks (r : AgentRegistry)
    (oracle : Nat → HealthOutcome) (now : DateTime) : AgentRegistry :=
  (r.agents.map Prod.fst).foldl
    (fun acc agent_id => acc.health_check_step agent_id (oracle agent_id) now) r

/-! ## Message bus (`backend/services/message_bus.py`) -/

/-- `MessageType` enumeration (`message_bus.py`). -/
inductive MessageType
  | request
  | response
  | event
  | broadcast
  | task
  | result
  | error
  | heartbeat
deriving DecidableEq, Repr

/-- The `.value` string of a `MessageType` enumerant. -/
def MessageType.value : MessageType → String
  | MessageType.request => "request"
  | MessageType.response => "response"
  | MessageType.event => "event"
  | MessageType.broadcast => "broadcast"
  | MessageType.task => "task"
  | MessageType.result => "result"
  | MessageType.error => "error"
  | MessageType.heartbeat => "heartbeat"

/-- The `MessageType(value)` enum constructor: `none` models the `ValueError`
raised for a string that is no enumerant. -/
def MessageType.ofValue (s : String) : Option MessageType :=
  if s = "request" then some MessageType.request
  else if s = "response" then some MessageType.response
  else if s = "event" then some MessageType.event
  else if s = "broadcast" then some MessageType.broadcast
  else if s = "task" then some MessageType.task
  else if s = "result" then some MessageType.result
  else if s = "error" then some MessageType.error
  else if s = "heartbeat" then some MessageType.heartbeat
  else none

/-- `Priority` enumeration (`message_bus.py`). -/
inductive Priority
  | low
  | normal
  | high
  | critical
deriving DecidableEq, Repr

/-- The `.value` integer of a `Priority` enumerant. -/
def Priority.value : Priority → Int
  | Priority.low => 1
  | Priority.normal => 2
  | Priority.high => 3
  | Priority.critical => 4

/-- The `Priority(value)` enum constructor: `none` models the `ValueError`
raised for an integer that is no enumerant. -/
def Priority.ofValue (n : Int) : Option Priority :=
  if n = 1 then some Priority.low
  else if n = 2 then some Priority.normal
  else if n = 3 then some Priority.high
  else if n = 4 then some Priority.critical
  else none

/-- `MessageContent` dataclass (`message_bus.py`), parametrised by the
JSON-representable payload type `α`. -/
structure MessageContent (α : Type) where
  message_id : String
  correlation_id : Option String
  message_type : MessageType
  sender_id : Option String
  recipient_id : Option String
  subject : String
  payload : α
  priority : Priority
  expires_at : Option DateTime
  retry_count : Int
  max_retries : Int
  created_at : DateTime
deriving DecidableEq, Repr

/-- The wire-envelope dictionary produced by `MessageContent.to_dict`:
`message_type` and `priority` hold enumerant values, `expires_at` and
`created_at` hold ISO-8601 datetime strings (represented by the lossless
`DateTime` value itself), every other field passes through. -/
structure WireEnvelope (α : Type) where
  message_id : String
  correlation_id : Option String
  message_type : String
  sender_id : Option String
  recipient_id : Option String
  subject : String
  payload : α
  priority : Int
  expires_at : Option DateTime
  retry_count : Int
  max_retries : Int
  created_at : DateTime
deriving DecidableEq, Repr

/-- `MessageContent.to_dict`. -/
def MessageContent.to_dict {α : Type} (m : MessageContent α) : WireEnvelope α :=
  { message_id := m.message_id
    correlation_id := m.correlation_id
    message_type := m.message_type.value
    sender_id := m.sender_id
    recipient_id := m.recipient_id
    subject := m.subject
    payload := m.payload
    priority := m.priority.value
    expires_at := m.expires_at
    retry_count := m.retry_count
    max_retries := m.max_retries
    created_at := m.created_at }

/-- `MessageContent.from_dict`: rebuilds the dataclass from the envelope.
The enum constructors `MessageType(...)` and `Priority(...)` raise for
unknown values, so the result is optional.  (The `.get` defaults of the
source apply to envelopes with missing keys; the typed envelope always
carries every key `to_dict` emits.) -/
def MessageContent.from_dict {α : Type} (d : WireEnvelope α) :
    Option (MessageContent α) :=
  match MessageType.ofValue d.message_type, Priority.ofValue d.priority with
  | some mt, some pr =>
    some
      { message_id := d.message_id
        correlation_id := d.correlation_id
        message_type := mt
        sender_id := d.sender_id
        recipient_id := d.recipient_id
        subject := d.subject
        payload := d.payload
        priority := pr
        expires_at := d.expires_at
        retry_count := d.retry_count
        max_retries := d.max_retries
        created_at := d.created_at }
  | _, _ => none

/-- How a `MessageBus.request` call ends, as an oracle.  `subscribeRaises`
is an exception from `await self._nc.subscribe(response_subject)`, which the
source runs *before* the `try`, after registering the pending future.  The
remaining fates are the exits of the `try` body: the initial publish
returned `False`; the `asyncio.wait_for` timed out; the pending future was
resolved with a deserialized response envelope; or an exception (e.g. the
future being cancelled by `stop()`) escaped the `try` body. -/
inductive RequestEnd (α : Type)
  | subscribeRaises (e : String)
  | publishFailed
  | timeout
  | response (msg : MessageContent α)
  | exn (e : String)

/-- What a finished `MessageBus.request` call left behind: the value returned
to the caller (`.error` when an exception propagated out of the call,
`.ok none` for the timeout and failed-publish returns, `.ok (some msg)` for a
received response), the `_pending_requests` keys after the call, and whether
the ephemeral reply-subject subscription was drained. -/
structure RequestResult (α : Type) where
  outcome : Except String (Option (MessageContent α))
  pending_after : List String
  subscription_drained : Bool

/-- The `finally` block of `MessageBus.request`, applied to each exit of the
`try` body: `self._pending_requests.pop(request_id, None)` followed by
`await response_handler.drain()`. -/
def requestFinally {α : Type} (pending1 : List String) (request_id : String)
    (result : Except String (Option (MessageContent α))) : RequestResult α :=
  { outcome := result
    pending_after := pending1.filter fun i => i ≠ request_id
    subscription_drained := true }

/-- `MessageBus.request`, over the `_pending_requests` key set, mirroring the
source's control flow: the future is registered under the fresh `request_id`
and the ephemeral reply subject is subscribed *before* the `try`.  When that
`subscribe` raises, the exception propagates with the pending entry still
registered and nothing drained — the `finally` belongs to a `try` that was
never entered.  Every exit of the `try` body — early `return None` on failed
publish, timeout, success and exception alike — goes through the `finally`
(`requestFinally`). -/
def MessageBus.request {α : Type} (pending : List String) (request_id : String)
    (fate : RequestEnd α) : RequestResult α :=
  let pending1 := pending ++ [request_id]
  match fate with
  | RequestEnd.subscribeRaises e =>
    { outcome := Except.error e
      pending_after := pending1
      subscription_drained := false }
  | RequestEnd.publishFailed =>
    requestFinally pending1 request_id (Except.ok none)
  | RequestEnd.timeout =>
    requestFinally pending1 request_id (Except.ok none)
  | RequestEnd.response msg =>
    requestFinally pending1 request_id (Except.ok (some msg))
  | RequestEnd.exn e =>
    requestFinally pending1 request_id (Except.error e)

/-- Iterated calls to `execute_agent_task` with the same agent, task and
oracle: the state after `n` consecutive calls. -/
def iterate_exec (agent_id : Nat) (task_type : String)
    (task_result : Except String String) (execution_time : ℚ) (now : DateTime) :
    Nat → AgentRegistry → AgentRegistry
  | 0, r => r
  | n + 1, r =>
    match r.execute_agent_task agent_id task_type task_result execution_time now with
    | Except.ok (_, r1) =>
      iterate_exec agent_id task_type task_result execution_time now n r1
    | Except.error _ => r

/-- The specification-side description of a stable ascending sort followed by
taking the first element: the *first* element of the list (in its given
order) that attains the minimum of the order `r`. -/
def firstMinWith {α : Type} (r : α → α → Prop) [DecidableRel r] :
    List α → Option α
  | [] => none
  | a :: rest =>
    match firstMinWith r rest with
    | none => some a
    | some m => if r a m then some a else some m

/-! ### Concrete data used by the examples and witnesses -/

/-- A metadata record with the load fields the load balancer reads; all other
fields are fixed harmless values. -/
def demoAgent (id : Nat) (ty : AgentType) (total : Nat) (avg : ℚ)
    (last : Option DateTime) : AgentMetadata :=
  { agent_id := id, name := "demo", agent_type := ty, version := "1.0.0",
    description := "demo", capabilities := [], created_at := 0, updated_at := 0,
    status := AgentStatus.idle, total_executions := total,
    successful_executions := total, failed_executions := 0,
    average_execution_time := avg, last_execution_time := last }

/-- The load-balancing example of the spec: three healthy agents of one type
with loads `(5, 1.2 s)`, `(2, 3.0 s)`, `(2, 1.0 s)`. -/
def demoLoadRegistry : AgentRegistry :=
  { agents :=
      [(1, demoAgent 1 AgentType.code_analysis 5 (6 / 5) none),
       (2, demoAgent 2 AgentType.code_analysis 2 3 none),
       (3, demoAgent 3 AgentType.code_analysis 2 1 none)],
    instances := [], next_uuid := 4 }

/-- The staleness example of the spec, taken at `now = 10000`: agent 1 last
executed 2 hours (7200 s) ago at 2800, agent 2 executed 10 minutes (600 s)
ago at 9400. -/
def demoStaleRegistry : AgentRegistry :=
  { agents :=
      [(1, demoAgent 1 AgentType.code_analysis 1 1 (some 2800)),
       (2, demoAgent 2 AgentType.code_analysis 1 1 (some 9400))],
    instances := [], next_uuid := 3 }

/-- A well-behaved agent instance exposing every optional attribute. -/
def demoInstance : AgentInstance :=
  { name := some "worker", agent_type := some AgentType.code_analysis,
    version := some "2.0.0", description := some "demo worker",
    capabilities := some ["code_analysis"], has_execute_task := true }

/-- A one-agent registry whose agent is fresh (no executions yet) and has an
instance that implements `execute_task`. -/
def demoExecRegistry : AgentRegistry :=
  { agents := [(7, demoAgent 7 AgentType.code_analysis 0 0 none)],
    instances := [(7, demoInstance)], next_uuid := 8 }

/-- A one-agent registry whose agent last succeeded at time 2800 (stale for a
3600 s threshold at `now = 10000`) and whose instance raises from now on. -/
def demoFailRegistry : AgentRegistry :=
  { agents := [(7, demoAgent 7 AgentType.code_analysis 1 1 (some 2800))],
    instances := [(7, demoInstance)], next_uuid := 8 }

/-! ### Association-list (Python dict) lemmas -/

theorem dictGet_dictModify_self {β : Type} (k : Nat) (f : β → β)
    (l : List (Nat × β)) :
    dictGet k (dictModify k f l) = (dictGet k l).map f := by
  induction l with
  | nil => rfl
  | cons p rest ih =>
    simp only [dictModify, List.map_cons] at ih ⊢
    by_cases h : p.1 = k
    · simp [dictGet, h]
    · simp [dictGet, h, ih]

theorem dictGet_dictModify_ne {β : Type} {j k : Nat} (f : β → β)
    (l : List (Nat × β)) (h : j ≠ k) :
    dictGet j (dictModify k f l) = dictGet j l := by
  induction l with
  | nil => rfl
  | cons p rest ih =>
    simp only [dictModify, List.map_cons] at ih ⊢
    by_cases hp : p.1 = k
    · have hkj : ¬ (k = j) := fun e => h e.symm
      simp [dictGet, hp, hkj, ih]
    · simp [dictGet, hp, ih]

theorem dictModify_keys {β : Type} (k : Nat) (f : β → β) (l : List (Nat × β)) :
    (dictModify k f l).map Prod.fst = l.map Prod.fst := by
  induction l with
  | nil => rfl
  | cons p rest ih =>
    simp only [dictModify, List.map_cons] at ih ⊢
    by_cases h : p.1 = k
    · simp [h, ih]
    · simp [h, ih]

theorem dictGet_append_fresh {β : Type} (k : Nat) (v : β) (l : List (Nat × β))
    (h : ∀ p ∈ l, p.1 ≠ k) : dictGet k (l ++ [(k, v)]) = some v := by
  induction l with
  | nil => simp [dictGet]
  | cons p rest ih =>
    have hp : p.1 ≠ k := h p (by simp)
    simpa [dictGet, hp] using ih fun q hq => h q (by simp [hq])

theorem dictGet_eq_none_iff {β : Type} (k : Nat) (l : List (Nat × β)) :
    dictGet k l = none ↔ ∀ p ∈ l, p.1 ≠ k := by
  induction l with
  | nil => simp [dictGet]
  | cons p rest ih =>
    by_cases h : p.1 = k <;> simp [dictGet, h, ih]

theorem mem_keys_of_dictGet {β : Type} {k : Nat} {v : β} {l : List (Nat × β)}
    (h : dictGet k l = some v) : k ∈ l.map Prod.fst := by
  induction l with
  | nil => simp [dictGet] at h
  | cons p rest ih =>
    by_cases hp : p.1 = k
    · simp [hp]
    · simp only [dictGet, hp, if_neg] at h
      simp [ih h]

theorem dictGet_filter_self {β : Type} (k : Nat) (l : List (Nat × β)) :
    dictGet k (l.filter fun p => p.1 ≠ k) = none := by
  induction l with
  | nil => rfl
  | cons p rest ih =>
    by_cases h : p.1 = k
    · simpa [List.filter_cons, h] using ih
    · simpa [List.filter_cons, dictGet, h] using ih

theorem dictGet_filter_ne {β : Type} {j k : Nat} (l : List (Nat × β))
    (h : j ≠ k) :
    dictGet j (l.filter fun p => p.1 ≠ k) = dictGet j l := by
  induction l with
  | nil => rfl
  | cons p rest ih =>
    have hkj : ¬ (k = j) := fun e => h e.symm
    by_cases hp : p.1 = k
    · simpa [List.filter_cons, dictGet, hp, hkj] using ih
    · by_cases hj : p.1 = j
      · simp [List.filter_cons, dictGet, hp, hj, h]
      · simpa [List.filter_cons, dictGet, hp, hj] using ih

theorem dictGet_eq_some_iff_mem {β : Type} {k : Nat} {v : β}
    {l : List (Nat × β)} (hnd : (l.map Prod.fst).Nodup) :
    dictGet k l = some v ↔ (k, v) ∈ l := by
  induction l with
  | nil => simp [dictGet]
  | cons p rest ih =>
    obtain ⟨pk, pv⟩ := p
    simp only [List.map_cons, List.nodup_cons] at hnd
    by_cases hp : pk = k
    · subst hp
      have hstep : dictGet pk ((pk, pv) :: rest) = some pv := by simp [dictGet]
      rw [hstep]
      simp only [List.mem_cons, Option.some_inj, Prod.mk.injEq, true_and]
      constructor
      · rintro rfl; exact Or.inl rfl
      · rintro (h | h)
        · exact h.symm
        · exact absurd (List.mem_map_of_mem Prod.fst h) hnd.1
    · have hstep : dictGet k ((pk, pv) :: rest) = dictGet k rest := by
        simp [dictGet, hp]
      rw [hstep, ih hnd.2]
      simp only [List.mem_cons, Prod.mk.injEq]
      constructor
      · exact Or.inr
      · rintro (⟨h1, -⟩ | h)
        · exact absurd h1.symm hp
        · exact h

/-! ### `update_agent_status` facts -/

theorem update_status_get_self (r : AgentRegistry) {agent_id : Nat}
    {a : AgentMetadata} (st : AgentStatus) (now : DateTime)
    (ha : dictGet agent_id r.agents = some a) :
    dictGet agent_id (r.update_agent_status agent_id st now).agents =
      some { a with status := st, updated_at := now } := by
  unfold AgentRegistry.update_agent_status
  rw [ha]
  simp [AgentRegistry.modifyAgent, dictGet_dictModify_self, ha]

theorem update_status_get_ne (r : AgentRegistry) {j agent_id : Nat}
    (st : AgentStatus) (now : DateTime) (h : j ≠ agent_id) :
    dictGet j (r.update_agent_status agent_id st now).agents =
      dictGet j r.agents := by
  unfold AgentRegistry.update_agent_status
  by_cases hs : (dictGet agent_id r.agents).isSome
  · simp [hs, AgentRegistry.modifyAgent, dictGet_dictModify_ne _ _ h]
  · simp [hs]

theorem update_status_instances (r : AgentRegistry) (agent_id : Nat)
    (st : AgentStatus) (now : DateTime) :
    (r.update_agent_status agent_id st now).instances = r.instances := by
  unfold AgentRegistry.update_agent_status
  by_cases hs : (dictGet agent_id r.agents).isSome <;>
    simp [hs, AgentRegistry.modifyAgent]

theorem update_status_next_uuid (r : AgentRegistry) (agent_id : Nat)
    (st : AgentStatus) (now : DateTime) :
    (r.update_agent_status agent_id st now).next_uuid = r.next_uuid := by
  unfold AgentRegistry.update_agent_status
  by_cases hs : (dictGet agent_id r.agents).isSome <;>
    simp [hs, AgentRegistry.modifyAgent]

theorem update_status_keys (r : AgentRegistry) (agent_id : Nat)
    (st : AgentStatus) (now : DateTime) :
    (r.update_agent_status agent_id st now).agents.map Prod.fst =
      r.agents.map Prod.fst := by
  unfold AgentRegistry.update_agent_status
  by_cases hs : (dictGet agent_id r.agents).isSome <;>
    simp [hs, AgentRegistry.modifyAgent, dictModify_keys]

/-! ### `modifyAgent` facts -/

theorem modifyAgent_get_self (r : AgentRegistry) {agent_id : Nat}
    {a : AgentMetadata} (f : AgentMetadata → AgentMetadata)
    (ha : dictGet agent_id r.agents = some a) :
    dictGet agent_id (r.modifyAgent agent_id f).agents = some (f a) := by
  simp [AgentRegistry.modifyAgent, dictGet_dictModify_self, ha]

theorem modifyAgent_get_ne (r : AgentRegistry) {j agent_id : Nat}
    (f : AgentMetadata → AgentMetadata) (h : j ≠ agent_id) :
    dictGet j (r.modifyAgent agent_id f).agents = dictGet j r.agents := by
  simp [AgentRegistry.modifyAgent, dictGet_dictModify_ne _ _ h]

/-! ### `execute_agent_task` characterizations -/

theorem execute_fail_spec (r : AgentRegistry) {agent_id : Nat}
    {a : AgentMetadata} {inst : AgentInstance}
    (task_type : String) (err : String) (t : ℚ) (now : DateTime)
    (ha : dictGet agent_id r.agents = some a)
    (hi : dictGet agent_id r.instances = some inst)
    (he : inst.has_execute_task = true) :
    ∃ r1 : AgentRegistry,
      r.execute_agent_task agent_id task_type (Except.error err) t now =
        Except.ok
          ({ success := false, agent_id := agent_id, task_type := task_type,
             execution_time := t, result := none, error := some err,
             timestamp := now }, r1) ∧
      dictGet agent_id r1.agents = some
        { a with
          total_executions := a.total_executions + 1
          failed_executions := a.failed_executions + 1
          status := AgentStatus.idle
          updated_at := now } ∧
      (∀ j, j ≠ agent_id → dictGet j r1.agents = dictGet j r.agents) ∧
      r1.instances = r.instances ∧
      r1.next_uuid = r.next_uuid ∧
      r1.agents.map Prod.fst = r.agents.map Prod.fst := by
  unfold AgentRegistry.execute_agent_task
  rw [ha, hi]
  simp only [he, if_true]
  refine ⟨_, rfl, ?_, ?_, ?_, ?_, ?_⟩
  · have h1 := update_status_get_self r AgentStatus.busy now ha
    have h2 := modifyAgent_get_self
      (r.update_agent_status agent_id AgentStatus.busy now)
      (fun a => { a with
        total_executions := a.total_executions + 1
        failed_executions := a.failed_executions + 1 }) h1
    have h3 := update_status_get_self
      ((r.update_agent_status agent_id AgentStatus.busy now).modifyAgent agent_id
        (fun a => { a with
          total_executions := a.total_executions + 1
          failed_executions := a.failed_executions + 1 }))
      AgentStatus.idle now h2
    exact h3
  · intro j hj
    rw [update_status_get_ne _ _ _ hj, modifyAgent_get_ne _ _ hj,
      update_status_get_ne _ _ _ hj]
  · rw [update_status_instances]
    show (AgentRegistry.modifyAgent _ _ _).instances = _
    rw [AgentRegistry.modifyAgent, update_status_instances]
  · rw [update_status_next_uuid]
    show (AgentRegistry.modifyAgent _ _ _).next_uuid = _
    rw [AgentRegistry.modifyAgent, update_status_next_uuid]
  · rw [update_status_keys]
    simp only [AgentRegistry.modifyAgent]
    rw [dictModify_keys, update_status_keys]

theorem execute_success_spec (r : AgentRegistry) {agent_id : Nat}
    {a : AgentMetadata} {inst : AgentInstance}
    (task_type : String) (res : String) (t : ℚ) (now : DateTime)
    (ha : dictGet agent_id r.agents = some a)
    (hi : dictGet agent_id r.instances = some inst)
    (he : inst.has_execute_task = true) :
    ∃ r1 : AgentRegistry,
      r.execute_agent_task agent_id task_type (Except.ok res) t now =
        Except.ok
          ({ success := true, agent_id := agent_id, task_type := task_type,
             execution_time := t, result := some res, error := none,
             timestamp := now }, r1) ∧
      dictGet agent_id r1.agents = some
        { a with
          total_executions := a.total_executions + 1
          successful_executions := a.successful_executions + 1
          average_execution_time :=
            (a.average_execution_time * (a.total_executions : ℚ) + t)
              / ((a.total_executions + 1 : Nat) : ℚ)
          last_execution_time := some now
          status := AgentStatus.idle
          updated_at := now } ∧
      (∀ j, j ≠ agent_id → dictGet j r1.agents = dictGet j r.agents) ∧
      r1.instances = r.instances ∧
      r1.next_uuid = r.next_uuid ∧
      r1.agents.map Prod.fst = r.agents.map Prod.fst := by
  unfold AgentRegistry.execute_agent_task
  rw [ha, hi]
  simp only [he, if_true]
  refine ⟨_, rfl, ?_, ?_, ?_, ?_, ?_⟩
  · have h1 := update_status_get_self r AgentStatus.busy now ha
    have h2 := modifyAgent_get_self
      (r.update_agent_status agent_id AgentStatus.busy now)
      (fun a =>
        let n := a.total_executions + 1
        { a with
          total_executions := n
          successful_executions := a.successful_executions + 1
          average_execution_time :=
            (a.average_execution_time * ((n - 1 : Nat) : ℚ) + t) / (n : ℚ)
          last_execution_time := some now }) h1
    have h3 := update_status_get_self
      ((r.update_agent_status agent_id AgentStatus.busy now).modifyAgent agent_id
        (fun a =>
          let n := a.total_executions + 1
          { a with
            total_executions := n
            successful_executions := a.successful_executions + 1
            average_execution_time :=
              (a.average_execution_time * ((n - 1 : Nat) : ℚ) + t) / (n : ℚ)
            last_execution_time := some now }))
      AgentStatus.idle now h2
    exact h3
  · intro j hj
    rw [update_status_get_ne _ _ _ hj, modifyAgent_get_ne _ _ hj,
      update_status_get_ne _ _ _ hj]
  · rw [update_status_instances]
    show (AgentRegistry.modifyAgent _ _ _).instances = _
    rw [AgentRegistry.modifyAgent, update_status_instances]
  · rw [update_status_next_uuid]
    show (AgentRegistry.modifyAgent _ _ _).next_uuid = _
    rw [AgentRegistry.modifyAgent, update_status_next_uuid]
  · rw [update_status_keys]
    simp only [AgentRegistry.modifyAgent]
    rw [dictModify_keys, update_status_keys]

theorem iterate_fail_spec (agent_id : Nat) (task_type err : String)
    (t now : ℚ) (n : Nat) :
    ∀ (r : AgentRegistry) (a : AgentMetadata) (inst : AgentInstance),
      dictGet agent_id r.agents = some a →
      dictGet agent_id r.instances = some inst →
      inst.has_execute_task = true →
      ∃ a' : AgentMetadata,
        dictGet agent_id
          (iterate_exec agent_id task_type (Except.error err) t now n r).agents
            = some a' ∧
        a'.total_executions = a.total_executions + n ∧
        a'.failed_executions = a.failed_executions + n ∧
        a'.average_execution_time = a.average_execution_time ∧
        a'.last_execution_time = a.last_execution_time := by
  induction n with
  | zero =>
    intro r a inst ha hi he
    exact ⟨a, ha, rfl, rfl, rfl, rfl⟩
  | succ n ih =>
    intro r a inst ha hi he
    obtain ⟨r1, hres, hself, hother, hinst, hnext, hkeys⟩ :=
      execute_fail_spec r task_type err t now ha hi he
    have hi1 : dictGet agent_id r1.instances = some inst := by
      rw [hinst]; exact hi
    have step : iterate_exec agent_id task_type (Except.error err) t now
        (n + 1) r = iterate_exec agent_id task_type (Except.error err) t now n r1 := by
      simp [iterate_exec, hres]
    rw [step]
    obtain ⟨a', hget, h1, h2, h3, h4⟩ := ih r1 _ inst hself hi1 he
    refine ⟨a', hget, ?_, ?_, ?_, ?_⟩
    · rw [h1]; simp; omega
    · rw [h2]; simp; omega
    · simpa using h3
    · simpa using h4

theorem iterate_success_spec (agent_id : Nat) (task_type res : String)
    (t now : ℚ) (n : Nat) :
    ∀ (r : AgentRegistry) (a : AgentMetadata) (inst : AgentInstance),
      dictGet agent_id r.agents = some a →
      dictGet agent_id r.instances = some inst →
      inst.has_execute_task = true →
      ∃ a' : AgentMetadata,
        dictGet agent_id
          (iterate_exec agent_id task_type (Except.ok res) t now n r).agents
            = some a' ∧
        a'.total_executions = a.total_executions + n ∧
        a'.successful_executions = a.successful_executions + n ∧
        (0 < n → a'.last_execution_time = some now) ∧
        (0 < n → a'.average_execution_time =
          (a.average_execution_time * (a.total_executions : ℚ) + (n : ℚ) * t)
            / ((a.total_executions : ℚ) + (n : ℚ))) := by
  induction n with
  | zero =>
    intro r a inst ha hi he
    exact ⟨a, ha, rfl, rfl, fun h => absurd h (by omega), fun h => absurd h (by omega)⟩
  | succ n ih =>
    intro r a inst ha hi he
    obtain ⟨r1, hres, hself, hother, hinst, hnext, hkeys⟩ :=
      execute_success_spec r task_type res t now ha hi he
    have hi1 : dictGet agent_id r1.instances = some inst := by
      rw [hinst]; exact hi
    have step : iterate_exec agent_id task_type (Except.ok res) t now
        (n + 1) r = iterate_exec agent_id task_type (Except.ok res) t now n r1 := by
      simp [iterate_exec, hres]
    rw [step]
    obtain ⟨a', hget, h1, h2, h3, h4⟩ := ih r1 _ inst hself hi1 he
    refine ⟨a', hget, ?_, ?_, ?_, ?_⟩
    · rw [h1]; simp; omega
    · rw [h2]; simp; omega
    · intro _
      rcases Nat.eq_zero_or_pos n with hn | hn
      · subst hn
        have h0 : dictGet agent_id r1.agents = some a' := by
          simpa [iterate_exec] using hget
        rw [hself] at h0
        rw [(Option.some_inj.mp h0).symm]
      · exact h3 hn
    · intro _
      rcases Nat.eq_zero_or_pos n with hn | hn
      · subst hn
        have h0 : dictGet agent_id r1.agents = some a' := by
          simpa [iterate_exec] using hget
        rw [hself] at h0
        rw [(Option.some_inj.mp h0).symm]
        push_cast
        norm_num
      · have h4' := h4 hn
        rw [h4']
        have hden : ((a.total_executions : ℚ) + 1) ≠ 0 := by positivity
        simp only
        push_cast
        field_simp
        ring

/-! ### `register_agent` characterization -/

theorem register_agent_spec (r : AgentRegistry) (inst : AgentInstance)
    (now : DateTime)
    (hinv : ∀ p ∈ r.agents, p.1 < r.next_uuid)
    (hinv2 : ∀ p ∈ r.instances, p.1 < r.next_uuid) :
    (r.register_agent inst now).1 = r.next_uuid ∧
    (∀ p ∈ r.agents, p.1 ≠ (r.register_agent inst now).1) ∧
    dictGet (r.register_agent inst now).1
        (r.register_agent inst now).2.agents =
      some
        { agent_id := r.next_uuid
          name := inst.name.getD ("Agent-" ++ toString r.next_uuid)
          agent_type := inst.agent_type.getD AgentType.custom
          version := inst.version.getD "1.0.0"
          description := inst.description.getD "Unspecified agent"
          capabilities := inst.capabilities.getD []
          created_at := now
          updated_at := now
          status := AgentStatus.running
          total_executions := 0
          successful_executions := 0
          failed_executions := 0
          average_execution_time := 0
          last_execution_time := none } ∧
    dictGet (r.register_agent inst now).1
        (r.register_agent inst now).2.instances = some inst ∧
    (r.register_agent inst now).2.agents.map Prod.fst =
      r.agents.map Prod.fst ++ [r.next_uuid] ∧
    (r.register_agent inst now).2.next_uuid = r.next_uuid + 1 := by
  have hfresh : ∀ p ∈ r.agents, p.1 ≠ r.next_uuid :=
    fun p hp => Nat.ne_of_lt (hinv p hp)
  have hfresh2 : ∀ p ∈ r.instances, p.1 ≠ r.next_uuid :=
    fun p hp => Nat.ne_of_lt (hinv2 p hp)
  have hr2 : (r.register_agent inst now).2 =
      AgentRegistry.update_agent_status
        { agents := r.agents ++ [(r.next_uuid,
            { agent_id := r.next_uuid
              name := inst.name.getD ("Agent-" ++ toString r.next_uuid)
              agent_type := inst.agent_type.getD AgentType.custom
              version := inst.version.getD "1.0.0"
              description := inst.description.getD "Unspecified agent"
              capabilities := inst.capabilities.getD []
              created_at := now
              updated_at := now
              status := AgentStatus.initializing
              total_executions := 0
              successful_executions := 0
              failed_executions := 0
              average_execution_time := 0
              last_execution_time := none })]
          instances := r.instances ++ [(r.next_uuid, inst)]
          next_uuid := r.next_uuid + 1 }
        r.next_uuid AgentStatus.running now := rfl
  have hid : (r.register_agent inst now).1 = r.next_uuid := rfl
  rw [hid, hr2]
  refine ⟨rfl, hfresh, ?_, ?_, ?_, ?_⟩
  · have hb : dictGet r.next_uuid
        (r.agents ++ [(r.next_uuid,
          ({ agent_id := r.next_uuid
             name := inst.name.getD ("Agent-" ++ toString r.next_uuid)
             agent_type := inst.agent_type.getD AgentType.custom
             version := inst.version.getD "1.0.0"
             description := inst.description.getD "Unspecified agent"
             capabilities := inst.capabilities.getD []
             created_at := now
             updated_at := now
             status := AgentStatus.initializing
             total_executions := 0
             successful_executions := 0
             failed_executions := 0
             average_execution_time := 0
             last_execution_time := none } : AgentMetadata))]) =
        some
          { agent_id := r.next_uuid
            name := inst.name.getD ("Agent-" ++ toString r.next_uuid)
            agent_type := inst.agent_type.getD AgentType.custom
            version := inst.version.getD "1.0.0"
            description := inst.description.getD "Unspecified agent"
            capabilities := inst.capabilities.getD []
            created_at := now
            updated_at := now
            status := AgentStatus.initializing
            total_executions := 0
            successful_executions := 0
            failed_executions := 0
            average_execution_time := 0
            last_execution_time := none } :=
      dictGet_append_fresh r.next_uuid _ r.agents hfresh
    exact update_status_get_self ⟨_, _, _⟩ AgentStatus.running now hb
  · rw [update_status_instances]
    exact dictGet_append_fresh r.next_uuid inst r.instances hfresh2
  · rw [update_status_keys]
    simp
  · rw [update_status_next_uuid]

/-! ### `unregister_agent` / `cleanup_stale_agents` -/

theorem unregister_agents_eq (r : AgentRegistry) (k : Nat) :
    (r.unregister_agent k).2.agents = r.agents.filter fun p => p.1 ≠ k := by
  unfold AgentRegistry.unregister_agent
  by_cases h : (dictGet k r.agents).isSome
  · simp [h]
  · rw [if_neg h]
    refine (List.filter_eq_self.mpr ?_).symm
    intro p hp
    have hne := (dictGet_eq_none_iff k r.agents).mp
      (Option.not_isSome_iff_eq_none.mp h) p hp
    simpa using hne

theorem foldl_unregister_agents (L : List (Nat × AgentMetadata)) :
    ∀ r : AgentRegistry,
      (L.foldl (fun acc p => (acc.unregister_agent p.1).2) r).agents =
        r.agents.filter fun p => !(L.map Prod.fst).contains p.1 := by
  induction L with
  | nil => intro r; simp
  | cons q L' ih =>
    intro r
    rw [List.foldl_cons, ih, unregister_agents_eq, List.filter_filter]
    apply List.filter_congr
    intro p _
    by_cases hpq : p.1 = q.1 <;>
      simp [List.contains_cons, hpq, Bool.and_comm]

theorem cleanup_agents_eq (r : AgentRegistry) (th : ℚ) (now : DateTime)
    (hnd : (r.agents.map Prod.fst).Nodup) :
    (r.cleanup_stale_agents th now).agents =
      r.agents.filter fun p => !(isStale th now p.2) := by
  unfold AgentRegistry.cleanup_stale_agents
  rw [foldl_unregister_agents]
  apply List.filter_congr
  intro p hp
  congr 1
  rw [Bool.eq_iff_iff]
  constructor
  · intro hc
    have hc' : p.1 ∈ (r.agents.filter fun q => isStale th now q.2).map Prod.fst := by
      simpa using hc
    simp only [List.mem_map, List.mem_filter] at hc'
    obtain ⟨q, ⟨hq, hstale⟩, hkey⟩ := hc'
    have := List.inj_on_of_nodup_map hnd hq hp hkey
    rw [← this]
    exact hstale
  · intro hs
    have hm : p.1 ∈ (r.agents.filter fun q => isStale th now q.2).map Prod.fst := by
      simp only [List.mem_map, List.mem_filter]
      exact ⟨p, ⟨hp, hs⟩, rfl⟩
    simpa using hm

/-! ### Health-check sweep facts -/

theorem health_step_eq (r : AgentRegistry) {agent_id : Nat}
    {a : AgentMetadata} (h : HealthOutcome) (now : DateTime)
    (ha : dictGet agent_id r.agents = some a) :
    r.health_check_step agent_id h now =
      if h.bad ∧ a.status = AgentStatus.running
        then r.update_agent_status agent_id AgentStatus.error now
        else r := by
  unfold AgentRegistry.health_check_step
  rw [ha]

theorem health_step_get_self (r : AgentRegistry) {agent_id : Nat}
    {a : AgentMetadata} (h : HealthOutcome) (now : DateTime)
    (ha : dictGet agent_id r.agents = some a) :
    dictGet agent_id (r.health_check_step agent_id h now).agents =
      some (if h.bad ∧ a.status = AgentStatus.running
        then { a with status := AgentStatus.error, updated_at := now }
        else a) := by
  rw [health_step_eq r h now ha]
  by_cases hc : h.bad ∧ a.status = AgentStatus.running
  · rw [if_pos hc, if_pos hc]
    exact update_status_get_self r AgentStatus.error now ha
  · rw [if_neg hc, if_neg hc]
    exact ha

theorem health_step_get_ne (r : AgentRegistry) {j agent_id : Nat}
    (h : HealthOutcome) (now : DateTime) (hne : j ≠ agent_id) :
    dictGet j (r.health_check_step agent_id h now).agents =
      dictGet j r.agents := by
  cases hg : dictGet agent_id r.agents with
  | none =>
    unfold AgentRegistry.health_check_step
    rw [hg]
  | some a =>
    rw [health_step_eq r h now hg]
    by_cases hc : h.bad ∧ a.status = AgentStatus.running
    · rw [if_pos hc]
      exact update_status_get_ne r _ now hne
    · rw [if_neg hc]

theorem foldl_health_get_notmem (oracle : Nat → HealthOutcome) (now : DateTime)
    (ids : List Nat) :
    ∀ (s : AgentRegistry) (j : Nat), j ∉ ids →
      dictGet j
        (ids.foldl
          (fun acc agent_id =>
            acc.health_check_step agent_id (oracle agent_id) now) s).agents =
        dictGet j s.agents := by
  induction ids with
  | nil => intro s j _; rfl
  | cons k rest ih =>
    intro s j hj
    rw [List.foldl_cons]
    have hj1 : j ∉ rest := fun h => hj (List.mem_cons_of_mem _ h)
    have hjk : j ≠ k := fun h => hj (h ▸ List.mem_cons_self _ _)
    rw [ih _ j hj1, health_step_get_ne s _ now hjk]

theorem perform_health_checks_get (r : AgentRegistry)
    (oracle : Nat → HealthOutcome) (now : DateTime) {agent_id : Nat}
    {a : AgentMetadata}
    (hnd : (r.agents.map Prod.fst).Nodup)
    (ha : dictGet agent_id r.agents = some a) :
    dictGet agent_id (r.perform_health_checks oracle now).agents =
      some (if (oracle agent_id).bad ∧ a.status = AgentStatus.running
        then { a with status := AgentStatus.error, updated_at := now }
        else a) := by
  unfold AgentRegistry.perform_health_checks
  have hmem : agent_id ∈ r.agents.map Prod.fst := mem_keys_of_dictGet ha
  obtain ⟨pre, post, hsplit⟩ := List.append_of_mem hmem
  have hnd' := hnd
  rw [hsplit] at hnd'
  have hposts : (agent_id :: post).Nodup := hnd'.of_append_right
  have hpost : agent_id ∉ post := (List.nodup_cons.mp hposts).1
  have hdisj := List.disjoint_of_nodup_append hnd'
  have hpre : agent_id ∉ pre := fun hmem' =>
    hdisj hmem' (List.mem_cons_self _ _)
  rw [hsplit, List.foldl_append, List.foldl_cons]
  have hpre_get : dictGet agent_id
      ((pre.foldl (fun acc agent_id =>
        acc.health_check_step agent_id (oracle agent_id) now) r)).agents =
      some a := by
    rw [foldl_health_get_notmem oracle now pre r agent_id hpre]
    exact ha
  rw [foldl_health_get_notmem oracle now post _ agent_id hpost]
  exact health_step_get_self _ (oracle agent_id) now hpre_get

/-! ### Stable sort / first-minimum lemmas -/

theorem head?_insertionSort {α : Type} (r : α → α → Prop) [DecidableRel r]
    (l : List α) : (l.insertionSort r).head? = firstMinWith r l := by
  induction l with
  | nil => rfl
  | cons a t ih =>
    rw [List.insertionSort]
    cases hf : firstMinWith r t with
    | none =>
      have ht : List.insertionSort r t = [] := by
        rw [← List.head?_eq_none_iff, ih, hf]
      rw [ht]
      simp [List.orderedInsert, firstMinWith, hf]
    | some m =>
      have ht : (List.insertionSort r t).head? = some m := by rw [ih, hf]
      obtain ⟨s, hs⟩ : ∃ s, List.insertionSort r t = m :: s := by
        cases hcase : List.insertionSort r t with
        | nil => rw [hcase] at ht; simp at ht
        | cons x s =>
          rw [hcase] at ht
          simp only [List.head?_cons, Option.some_inj] at ht
          exact ⟨s, by rw [ht]⟩
      rw [hs]
      simp only [List.orderedInsert, firstMinWith, hf]
      by_cases hr : r a m
      · rw [if_pos hr, if_pos hr]
        rfl
      · rw [if_neg hr, if_neg hr]
        rfl

theorem firstMinWith_eq_none_iff {α : Type} (r : α → α → Prop)
    [DecidableRel r] (l : List α) : firstMinWith r l = none ↔ l = [] := by
  cases l with
  | nil => simp [firstMinWith]
  | cons a t =>
    simp only [firstMinWith]
    cases hf : firstMinWith r t with
    | none => simp
    | some m =>
      by_cases hr : r a m <;> simp [hr]

theorem firstMinWith_mem {α : Type} (r : α → α → Prop) [DecidableRel r] :
    ∀ (l : List α) (m : α), firstMinWith r l = some m → m ∈ l := by
  intro l
  induction l with
  | nil => intro m h; simp [firstMinWith] at h
  | cons a t ih =>
    intro m h
    cases hf : firstMinWith r t with
    | none =>
      simp only [firstMinWith, hf] at h
      obtain rfl : a = m := Option.some_inj.mp h
      exact List.mem_cons_self _ _
    | some m' =>
      simp only [firstMinWith, hf] at h
      by_cases hr : r a m'
      · rw [if_pos hr] at h
        obtain rfl : a = m := Option.some_inj.mp h
        exact List.mem_cons_self _ _
      · rw [if_neg hr] at h
        obtain rfl : m' = m := Option.some_inj.mp h
        exact List.mem_cons_of_mem _ (ih _ hf)

theorem firstMinWith_min {α : Type} (r : α → α → Prop) [DecidableRel r]
    (htot : ∀ a b, ¬ r a b → r b a)
    (htrans : ∀ a b c, r a b → r b c → r a c) :
    ∀ (l : List α) (m : α), firstMinWith r l = some m → ∀ b ∈ l, r m b := by
  have hrefl : ∀ x, r x x := by
    intro x
    by_cases h : r x x
    · exact h
    · exact htot x x h
  intro l
  induction l with
  | nil => intro m h; simp [firstMinWith] at h
  | cons a t ih =>
    intro m h b hb
    cases hf : firstMinWith r t with
    | none =>
      have ht : t = [] := (firstMinWith_eq_none_iff r t).mp hf
      subst ht
      simp only [firstMinWith] at h
      obtain rfl : a = m := Option.some_inj.mp h
      rcases List.mem_cons.mp hb with rfl | hb'
      · exact hrefl _
      · simp at hb'
    | some m' =>
      simp only [firstMinWith, hf] at h
      by_cases hr : r a m'
      · rw [if_pos hr] at h
        obtain rfl : a = m := Option.some_inj.mp h
        rcases List.mem_cons.mp hb with rfl | hb'
        · exact hrefl _
        · exact htrans _ m' b hr (ih m' hf b hb')
      · rw [if_neg hr] at h
        obtain rfl : m' = m := Option.some_inj.mp h
        rcases List.mem_cons.mp hb with rfl | hb'
        · exact htot _ _ hr
        · exact ih _ hf b hb'

theorem firstMinWith_earliest {α : Type} (r : α → α → Prop) [DecidableRel r] :
    ∀ (l : List α) (m : α), firstMinWith r l = some m →
      ∃ l₁ l₂, l = l₁ ++ m :: l₂ ∧ ∀ b ∈ l₁, ¬ r b m := by
  intro l
  induction l with
  | nil => intro m h; simp [firstMinWith] at h
  | cons a t ih =>
    intro m h
    cases hf : firstMinWith r t with
    | none =>
      simp only [firstMinWith, hf] at h
      obtain rfl : a = m := Option.some_inj.mp h
      exact ⟨[], t, rfl, by simp⟩
    | some m' =>
      simp only [firstMinWith, hf] at h
      by_cases hr : r a m'
      · rw [if_pos hr] at h
        obtain rfl : a = m := Option.some_inj.mp h
        exact ⟨[], t, rfl, by simp⟩
      · rw [if_neg hr] at h
        obtain rfl : m' = m := Option.some_inj.mp h
        obtain ⟨l₁, l₂, hsplit, hfirst⟩ := ih _ hf
        refine ⟨a :: l₁, l₂, by rw [hsplit]; rfl, ?_⟩
        intro b hb
        rcases List.mem_cons.mp hb with rfl | hb'
        · exact hr
        · exact hfirst b hb'

theorem loadLE_total (a b : AgentMetadata) (h : ¬ loadLE a b) : loadLE b a := by
  unfold loadLE at *
  push_neg at h
  obtain ⟨h1, h2⟩ := h
  rcases Nat.lt_or_ge b.total_executions a.total_executions with hlt | hge
  · exact Or.inl hlt
  · have heq : b.total_executions = a.total_executions := le_antisymm h1 hge
    refine Or.inr ⟨heq, ?_⟩
    exact le_of_lt (h2 heq.symm)

theorem loadLE_trans (a b c : AgentMetadata) (hab : loadLE a b)
    (hbc : loadLE b c) : loadLE a c := by
  unfold loadLE at *
  rcases hab with hab | ⟨hab1, hab2⟩ <;> rcases hbc with hbc | ⟨hbc1, hbc2⟩
  · exact Or.inl (lt_trans hab hbc)
  · exact Or.inl (hbc1 ▸ hab)
  · exact Or.inl (hab1 ▸ hbc)
  · exact Or.inr ⟨hab1.trans hbc1, hab2.trans hbc2⟩

theorem get_load_balanced_eq_firstMin (reg : AgentRegistry) (ty : AgentType) :
    reg.get_load_balanced_agent ty =
      (firstMinWith loadLE (reg.get_healthy_agents (some ty))).map
        AgentMetadata.agent_id := by
  unfold AgentRegistry.get_load_balanced_agent
  show Option.map AgentMetadata.agent_id
      ((reg.get_healthy_agents (some ty)).insertionSort loadLE).head? = _
  rw [head?_insertionSort]

/-! ## The claims -/

/-- C1: for a registered agent whose `execute_task` raises, a call to
`execute_agent_task` increments `total_executions` and `failed_executions` by
one each, leaves `average_execution_time` unchanged, sets the status back to
`IDLE`, and returns (does not raise) the failure envelope
`{success: false, agent_id, task_type, execution_time, error, timestamp}`;
after `n` failing calls `failed_executions` has grown by exactly `n` (hence
equals `n` from a fresh agent, whose counter starts at 0) and
`average_execution_time` still has its value from before the failing run. -/
theorem claim_C1_failure_path (r : AgentRegistry) (agent_id : Nat)
    (a : AgentMetadata) (inst : AgentInstance) (task_type err : String)
    (t now : ℚ)
    (ha : dictGet agent_id r.agents = some a)
    (hi : dictGet agent_id r.instances = some inst)
    (he : inst.has_execute_task = true) :
    (∃ r1, r.execute_agent_task agent_id task_type (Except.error err) t now =
        Except.ok ({ success := false, agent_id := agent_id,
                     task_type := task_type, execution_time := t,
                     result := none, error := some err,
                     timestamp := now }, r1) ∧
      dictGet agent_id r1.agents = some { a with
        total_executions := a.total_executions + 1
        failed_executions := a.failed_executions + 1
        status := AgentStatus.idle
        updated_at := now }) ∧
    (∀ n : Nat, ∃ a',
      dictGet agent_id
        (iterate_exec agent_id task_type (Except.error err) t now n r).agents
          = some a' ∧
      a'.failed_executions = a.failed_executions + n ∧
      a'.average_execution_time = a.average_execution_time) := by
  constructor
  · obtain ⟨r1, hres, hself, -, -, -, -⟩ :=
      execute_fail_spec r task_type err t now ha hi he
    exact ⟨r1, hres, hself⟩
  · intro n
    obtain ⟨a', hget, -, h2, h3, -⟩ :=
      iterate_fail_spec agent_id task_type err t now n r a inst ha hi he
    exact ⟨a', hget, h2, h3⟩

/-- Witness for C1: three failing calls on the fresh demo agent leave the
failure counter at 3 and the average at its initial 0. -/
theorem claim_C1_failure_path_witness :
    (dictGet 7 (iterate_exec 7 "analyze" (Except.error "boom") 2 5 3
        demoExecRegistry).agents).map AgentMetadata.failed_executions =
      some 3 ∧
    (dictGet 7 (iterate_exec 7 "analyze" (Except.error "boom") 2 5 3
        demoExecRegistry).agents).map AgentMetadata.average_execution_time =
      some 0 := by
  obtain ⟨-, hiter⟩ := claim_C1_failure_path demoExecRegistry 7
    (demoAgent 7 AgentType.code_analysis 0 0 none) demoInstance "analyze"
    "boom" 2 5 (by decide) (by decide) rfl
  obtain ⟨a', hget, h2, h3⟩ := hiter 3
  rw [hget]
  constructor
  · simp only [Option.map_some', Option.some_inj]
    rw [h2]
    simp [demoAgent]
  · simp only [Option.map_some', Option.some_inj]
    rw [h3]
    simp [demoAgent]

/-- C2: for a registered agent whose `execute_task` succeeds, a call to
`execute_agent_task` increments `total_executions` and
`successful_executions`, recomputes the average as the incremental mean
`(avg*(n-1) + new_time)/n`, sets `last_execution_time`, returns the agent to
`IDLE` and returns the success envelope; from a fresh agent, `n` calls each
succeeding in `t` seconds leave `total_executions = n`,
`successful_executions = n` and `average_execution_time = t` (exactly, in
`ℚ`). -/
theorem claim_C2_success_path (r : AgentRegistry) (agent_id : Nat)
    (a : AgentMetadata) (inst : AgentInstance) (task_type res : String)
    (t now : ℚ)
    (ha : dictGet agent_id r.agents = some a)
    (hi : dictGet agent_id r.instances = some inst)
    (he : inst.has_execute_task = true) :
    (∃ r1, r.execute_agent_task agent_id task_type (Except.ok res) t now =
        Except.ok ({ success := true, agent_id := agent_id,
                     task_type := task_type, execution_time := t,
                     result := some res, error := none,
                     timestamp := now }, r1) ∧
      dictGet agent_id r1.agents = some { a with
        total_executions := a.total_executions + 1
        successful_executions := a.successful_executions + 1
        average_execution_time :=
          (a.average_execution_time * (a.total_executions : ℚ) + t)
            / ((a.total_executions + 1 : Nat) : ℚ)
        last_execution_time := some now
        status := AgentStatus.idle
        updated_at := now }) ∧
    (a.total_executions = 0 → a.successful_executions = 0 →
      ∀ n : Nat, ∃ a',
        dictGet agent_id
          (iterate_exec agent_id task_type (Except.ok res) t now n r).agents
            = some a' ∧
        a'.total_executions = n ∧
        a'.successful_executions = n ∧
        (0 < n → a'.average_execution_time = t)) := by
  constructor
  · obtain ⟨r1, hres, hself, -, -, -, -⟩ :=
      execute_success_spec r task_type res t now ha hi he
    exact ⟨r1, hres, hself⟩
  · intro h0 hs0 n
    obtain ⟨a', hget, h1, h2, -, h4⟩ :=
      iterate_success_spec agent_id task_type res t now n r a inst ha hi he
    refine ⟨a', hget, by omega, by omega, ?_⟩
    intro hn
    rw [h4 hn, h0]
    have hnz : (n : ℚ) ≠ 0 := Nat.cast_ne_zero.mpr (by omega)
    push_cast
    field_simp

/-- Witness for C2: three calls, each succeeding in 2 seconds, on the fresh
demo agent leave both counters at 3 and the average at exactly 2. -/
theorem claim_C2_success_path_witness :
    (dictGet 7 (iterate_exec 7 "analyze" (Except.ok "done") 2 5 3
        demoExecRegistry).agents).map AgentMetadata.total_executions =
      some 3 ∧
    (dictGet 7 (iterate_exec 7 "analyze" (Except.ok "done") 2 5 3
        demoExecRegistry).agents).map AgentMetadata.successful_executions =
      some 3 ∧
    (dictGet 7 (iterate_exec 7 "analyze" (Except.ok "done") 2 5 3
        demoExecRegistry).agents).map AgentMetadata.average_execution_time =
      some 2 := by
  obtain ⟨-, hiter⟩ := claim_C2_success_path demoExecRegistry 7
    (demoAgent 7 AgentType.code_analysis 0 0 none) demoInstance "analyze"
    "done" 2 5 (by decide) (by decide) rfl
  obtain ⟨a', hget, h1, h2, h3⟩ := hiter rfl rfl 3
  rw [hget]
  refine ⟨?_, ?_, ?_⟩
  · simp only [Option.map_some', Option.some_inj]
    rw [h1]
  · simp only [Option.map_some', Option.some_inj]
    rw [h2]
  · simp only [Option.map_some', Option.some_inj]
    rw [h3 (by omega)]

/-- C3: `get_load_balanced_agent` considers only healthy (`RUNNING`, `IDLE`,
`BUSY`) agents of the requested type, stable-sorts them ascending by the
tuple `(total_executions, average_execution_time)` and returns the first id
(or `none` when no healthy agent of that type exists): the returned agent is
exactly the *first* healthy agent, in registration order, attaining the
minimal load; over loads `(5, 1.2 s)`, `(2, 3.0 s)`, `(2, 1.0 s)` it returns
the `(2, 1.0 s)` agent. -/
theorem claim_C3_load_balancer :
    (∀ (reg : AgentRegistry) (ty : AgentType),
      reg.get_load_balanced_agent ty =
        (firstMinWith loadLE (reg.get_healthy_agents (some ty))).map
          AgentMetadata.agent_id) ∧
    (∀ (reg : AgentRegistry) (ty : AgentType),
      (reg.get_load_balanced_agent ty = none ↔
        reg.get_healthy_agents (some ty) = [])) ∧
    (∀ (l : List AgentMetadata) (m : AgentMetadata),
      firstMinWith loadLE l = some m →
        m ∈ l ∧ (∀ b ∈ l, loadLE m b) ∧
        ∃ l₁ l₂, l = l₁ ++ m :: l₂ ∧ ∀ b ∈ l₁, ¬ loadLE b m) ∧
    demoLoadRegistry.get_load_balanced_agent AgentType.code_analysis =
      some 3 := by
  refine ⟨get_load_balanced_eq_firstMin, ?_, ?_, by decide⟩
  · intro reg ty
    rw [get_load_balanced_eq_firstMin, Option.map_eq_none']
    exact firstMinWith_eq_none_iff loadLE _
  · intro l m h
    exact ⟨firstMinWith_mem loadLE l m h,
      firstMinWith_min loadLE loadLE_total loadLE_trans l m h,
      firstMinWith_earliest loadLE l m h⟩

/-- Witness for C3: the spec example evaluates to agent 3, and agent 3 is a
member of the healthy pool it was selected from. -/
theorem claim_C3_load_balancer_witness :
    demoLoadRegistry.get_load_balanced_agent AgentType.code_analysis =
      some 3 ∧
    demoAgent 3 AgentType.code_analysis 2 1 none ∈
      demoLoadRegistry.get_healthy_agents (some AgentType.code_analysis) := by
  refine ⟨claim_C3_load_balancer.2.2.2, ?_⟩
  exact (claim_C3_load_balancer.2.2.1
    (demoLoadRegistry.get_healthy_agents (some AgentType.code_analysis))
    (demoAgent 3 AgentType.code_analysis 2 1 none) (by decide)).1

/-- C4: serializing any `MessageContent` to the wire envelope with `to_dict`
and deserializing with `from_dict` reproduces the original object
field-for-field. -/
theorem claim_C4_roundtrip {α : Type} (m : MessageContent α) :
    MessageContent.from_dict (MessageContent.to_dict m) = some m := by
  cases m with
  | mk mid cid mt sid rid subj pay pri exp rc mr ca =>
    cases mt <;> cases pri <;> rfl

/-- The guarantee the `finally` block actually provides, for any exit value
of the `try` body: the entry under `request_id` is popped, other entries
survive, the subscription is drained, and the `try` body's value is what the
caller sees. -/
theorem requestFinally_spec {α : Type} (pending1 : List String)
    (request_id : String)
    (res : Except String (Option (MessageContent α))) :
    ¬ request_id ∈ (requestFinally pending1 request_id res).pending_after ∧
    (requestFinally pending1 request_id res).subscription_drained = true ∧
    (∀ i ∈ pending1, i ≠ request_id →
      i ∈ (requestFinally pending1 request_id res).pending_after) ∧
    (requestFinally pending1 request_id res).outcome = res := by
  refine ⟨?_, rfl, ?_, rfl⟩
  · intro hmem
    have hkeep := List.of_mem_filter hmem
    simp at hkeep
  · intro i hi hne
    exact List.mem_filter.mpr ⟨hi, by simpa using hne⟩

/-- C5, counterexample to the claim as stated: the claim quantifies over
*every* way the call ends, "an exception" included, but the source registers
the pending future and awaits `self._nc.subscribe(response_subject)`
*before* the `try` (`message_bus.py` lines 313-317), so when that
`subscribe` raises the call ends with an exception, the `finally` never
runs, the pending entry keyed by the generated correlation id is still
registered and the subscription was never drained. -/
theorem claim_C5_counterexample :
    "req-b" ∈ (MessageBus.request [] "req-b"
        (RequestEnd.subscribeRaises "connection closed" :
          RequestEnd Nat)).pending_after ∧
    (MessageBus.request [] "req-b"
        (RequestEnd.subscribeRaises "connection closed" :
          RequestEnd Nat)).subscription_drained = false ∧
    (MessageBus.request [] "req-b"
        (RequestEnd.subscribeRaises "connection closed" :
          RequestEnd Nat)).outcome = Except.error "connection closed" := by
  refine ⟨?_, rfl, rfl⟩
  simp [MessageBus.request]

/-- C5, amended: for every `MessageBus.request` call in which the ephemeral
reply-subject subscription is established (the pre-`try` `subscribe` does
not raise), the pending-future entry keyed by the generated correlation id
is removed from the pending-requests map and the subscription is drained
before the call returns — on failed publish, timeout, received response and
exception escaping the `try` body alike — while other pending entries
survive; on timeout the call returns `none`, and on success it returns the
deserialized response envelope.  When the pre-`try` `subscribe` itself
raises, the exception propagates with the entry still registered and nothing
drained. -/
theorem claim_C5_request_cleanup {α : Type} (pending : List String)
    (request_id : String) (fate : RequestEnd α)
    (hsub : ∀ e, fate ≠ RequestEnd.subscribeRaises e) :
    (¬ request_id ∈
        (MessageBus.request pending request_id fate).pending_after ∧
      (MessageBus.request pending request_id fate).subscription_drained =
        true ∧
      (∀ i ∈ pending, i ≠ request_id →
        i ∈ (MessageBus.request pending request_id fate).pending_after) ∧
      (fate = RequestEnd.timeout →
        (MessageBus.request pending request_id fate).outcome =
          Except.ok none) ∧
      (∀ msg : MessageContent α, fate = RequestEnd.response msg →
        (MessageBus.request pending request_id fate).outcome =
          Except.ok (some msg))) ∧
    (∀ e : String,
      (MessageBus.request pending request_id
          (RequestEnd.subscribeRaises e : RequestEnd α)).pending_after =
        pending ++ [request_id] ∧
      (MessageBus.request pending request_id
          (RequestEnd.subscribeRaises e :
            RequestEnd α)).subscription_drained = false ∧
      (MessageBus.request pending request_id
          (RequestEnd.subscribeRaises e : RequestEnd α)).outcome =
        Except.error e) := by
  constructor
  · cases fate with
    | subscribeRaises e => exact absurd rfl (hsub e)
    | publishFailed =>
      obtain ⟨h1, h2, h3, -⟩ :=
        requestFinally_spec (pending ++ [request_id]) request_id
          (Except.ok none : Except String (Option (MessageContent α)))
      refine ⟨h1, h2,
        fun i hi hne => h3 i (List.mem_append_left _ hi) hne, ?_, ?_⟩
      · rintro ⟨⟩
      · rintro msg ⟨⟩
    | timeout =>
      obtain ⟨h1, h2, h3, -⟩ :=
        requestFinally_spec (pending ++ [request_id]) request_id
          (Except.ok none : Except String (Option (MessageContent α)))
      refine ⟨h1, h2,
        fun i hi hne => h3 i (List.mem_append_left _ hi) hne, ?_, ?_⟩
      · intro _
        rfl
      · rintro msg ⟨⟩
    | response msg =>
      obtain ⟨h1, h2, h3, -⟩ :=
        requestFinally_spec (pending ++ [request_id]) request_id
          (Except.ok (some msg))
      refine ⟨h1, h2,
        fun i hi hne => h3 i (List.mem_append_left _ hi) hne, ?_, ?_⟩
      · rintro ⟨⟩
      · intro msg' h
        injection h with h'
        subst h'
        rfl
    | exn e =>
      obtain ⟨h1, h2, h3, -⟩ :=
        requestFinally_spec (pending ++ [request_id]) request_id
          (Except.error e : Except String (Option (MessageContent α)))
      refine ⟨h1, h2,
        fun i hi hne => h3 i (List.mem_append_left _ hi) hne, ?_, ?_⟩
      · rintro ⟨⟩
      · rintro msg ⟨⟩
  · intro e
    exact ⟨rfl, rfl, rfl⟩

/-- Witness for C5 (amended): a concrete timed-out request — the `try` body
was entered — with one unrelated pending entry: its own entry is gone, the
unrelated entry survives, the subscription is drained and the caller sees
`none`. -/
theorem claim_C5_request_cleanup_witness :
    ¬ "req-b" ∈ (MessageBus.request ["req-a"] "req-b"
        (RequestEnd.timeout : RequestEnd Nat)).pending_after ∧
    "req-a" ∈ (MessageBus.request ["req-a"] "req-b"
        (RequestEnd.timeout : RequestEnd Nat)).pending_after ∧
    (MessageBus.request ["req-a"] "req-b"
        (RequestEnd.timeout : RequestEnd Nat)).outcome = Except.ok none := by
  obtain ⟨⟨h1, -, h3, h4, -⟩, -⟩ := claim_C5_request_cleanup ["req-a"]
    "req-b" (RequestEnd.timeout : RequestEnd Nat) (fun e h => nomatch h)
  exact ⟨h1, h3 "req-a" (by simp) (by decide), h4 rfl⟩

/-- C6: under the uuid-freshness invariant (every stored id is below the
supply counter), `register_agent` returns an id different from every id
already present, stores the metadata (status `RUNNING` immediately after the
call) and the instance under that id, preserves key uniqueness (no two
agents ever share an id) and re-establishes the invariant. -/
theorem claim_C6_register (r : AgentRegistry) (inst : AgentInstance)
    (now : DateTime)
    (hinv : ∀ p ∈ r.agents, p.1 < r.next_uuid)
    (hinv2 : ∀ p ∈ r.instances, p.1 < r.next_uuid) :
    (∀ p ∈ r.agents, p.1 ≠ (r.register_agent inst now).1) ∧
    ((dictGet (r.register_agent inst now).1
        (r.register_agent inst now).2.agents).map AgentMetadata.status =
      some AgentStatus.running) ∧
    dictGet (r.register_agent inst now).1
        (r.register_agent inst now).2.instances = some inst ∧
    ((r.agents.map Prod.fst).Nodup →
      ((r.register_agent inst now).2.agents.map Prod.fst).Nodup) ∧
    (∀ p ∈ (r.register_agent inst now).2.agents,
      p.1 < (r.register_agent inst now).2.next_uuid) := by
  obtain ⟨hid, hfresh, hget, hinst, hkeys, hnext⟩ :=
    register_agent_spec r inst now hinv hinv2
  refine ⟨hfresh, by rw [hget]; rfl, hinst, ?_, ?_⟩
  · intro hnd
    rw [hkeys]
    refine List.nodup_append.mpr ⟨hnd, List.nodup_singleton _, ?_⟩
    intro x hx hx1
    have hx2 : x = r.next_uuid := by simpa using hx1
    obtain ⟨q, hq, hqx⟩ := List.mem_map.mp hx
    exact hfresh q hq (by rw [hqx, hx2, hid])
  · intro p hp
    have hpk : p.1 ∈ (r.register_agent inst now).2.agents.map Prod.fst :=
      List.mem_map_of_mem Prod.fst hp
    rw [hkeys] at hpk
    rw [hnext]
    rcases List.mem_append.mp hpk with hin | hnew
    · obtain ⟨q, hq, hqx⟩ := List.mem_map.mp hin
      have := hinv q hq
      omega
    · have : p.1 = r.next_uuid := by simpa using hnew
      omega

/-- Witness for C6: registering the demo instance into the one-agent demo
registry: the new agent's status is `RUNNING` and the instance is stored
under the returned id. -/
theorem claim_C6_register_witness :
    ((dictGet (demoExecRegistry.register_agent demoInstance 5).1
        (demoExecRegistry.register_agent demoInstance 5).2.agents).map
      AgentMetadata.status = some AgentStatus.running) ∧
    dictGet (demoExecRegistry.register_agent demoInstance 5).1
        (demoExecRegistry.register_agent demoInstance 5).2.instances =
      some demoInstance := by
  obtain ⟨-, h2, h3, -, -⟩ := claim_C6_register demoExecRegistry demoInstance 5
    (by decide) (by decide)
  exact ⟨h2, h3⟩

/-- C7: `cleanup_stale_agents` keeps exactly the agents that are not stale:
an agent survives iff it was registered and either never executed or its
`last_execution_time` is within the threshold; an agent whose
`last_execution_time` is unset is never removed. -/
theorem claim_C7_cleanup (r : AgentRegistry) (th : ℚ) (now : DateTime)
    (hnd : (r.agents.map Prod.fst).Nodup) :
    ((r.cleanup_stale_agents th now).agents =
      r.agents.filter fun p => !(isStale th now p.2)) ∧
    (∀ (id : Nat) (a : AgentMetadata),
      dictGet id (r.cleanup_stale_agents th now).agents = some a ↔
        (dictGet id r.agents = some a ∧ isStale th now a = false)) ∧
    (∀ p ∈ r.agents, p.2.last_execution_time = none →
      p ∈ (r.cleanup_stale_agents th now).agents) := by
  have heq := cleanup_agents_eq r th now hnd
  have hnd' : (((r.agents.filter fun p => !(isStale th now p.2)).map
      Prod.fst)).Nodup :=
    ((List.filter_sublist r.agents).map Prod.fst).nodup hnd
  refine ⟨heq, ?_, ?_⟩
  · intro id a
    rw [heq, dictGet_eq_some_iff_mem hnd', List.mem_filter,
      dictGet_eq_some_iff_mem hnd]
    constructor
    · rintro ⟨hmem, hkeep⟩
      exact ⟨hmem, by simpa using hkeep⟩
    · rintro ⟨hmem, hstale⟩
      exact ⟨hmem, by simp [hstale]⟩
  · intro p hp hnone
    rw [heq]
    apply List.mem_filter.mpr
    refine ⟨hp, ?_⟩
    simp [isStale, hnone]

/-- Witness for C7, the spec example at `now = 10000` with threshold 3600:
the agent whose last execution was 2 hours ago (at 2800) is removed and the
one from 10 minutes ago (at 9400) is kept. -/
theorem claim_C7_cleanup_witness :
    (demoStaleRegistry.cleanup_stale_agents 3600 10000).agents =
      [(2, demoAgent 2 AgentType.code_analysis 1 1 (some 9400))] := by
  rw [(claim_C7_cleanup demoStaleRegistry 3600 10000 (by decide)).1]
  have h1 : isStale 3600 10000
      (demoAgent 1 AgentType.code_analysis 1 1 (some 2800)) = true := by
    simp only [isStale, demoAgent, decide_eq_true_eq]
    norm_num
  have h2 : isStale 3600 10000
      (demoAgent 2 AgentType.code_analysis 1 1 (some 9400)) = false := by
    simp only [isStale, demoAgent, decide_eq_false_iff_not]
    norm_num
  simp [demoStaleRegistry, List.filter_cons, h1, h2]

/-- C8: one pass of the health-check sweep sets an agent to `ERROR` exactly
when its `health_check` returned a falsy result or raised while that agent's
status was `RUNNING`; an agent in any other status is left untouched, and an
agent observed in `ERROR` after the sweep was either already in `ERROR` or
was a `RUNNING` agent with a bad health outcome. -/
theorem claim_C8_health_sweep (r : AgentRegistry)
    (oracle : Nat → HealthOutcome) (now : DateTime) (agent_id : Nat)
    (a : AgentMetadata)
    (hnd : (r.agents.map Prod.fst).Nodup)
    (ha : dictGet agent_id r.agents = some a) :
    (dictGet agent_id (r.perform_health_checks oracle now).agents =
      some (if (oracle agent_id).bad ∧ a.status = AgentStatus.running
        then { a with status := AgentStatus.error, updated_at := now }
        else a)) ∧
    (a.status ≠ AgentStatus.running →
      dictGet agent_id (r.perform_health_checks oracle now).agents =
        some a) ∧
    ((dictGet agent_id (r.perform_health_checks oracle now).agents).map
        AgentMetadata.status = some AgentStatus.error →
      a.status = AgentStatus.error ∨
        ((oracle agent_id).bad = true ∧ a.status = AgentStatus.running)) := by
  have hmain := perform_health_checks_get r oracle now hnd ha
  refine ⟨hmain, ?_, ?_⟩
  · intro hne
    rw [hmain, if_neg fun hc => hne hc.2]
  · intro herr
    rw [hmain] at herr
    by_cases hc : (oracle agent_id).bad ∧ a.status = AgentStatus.running
    · exact Or.inr hc
    · rw [if_neg hc] at herr
      simp only [Option.map_some', Option.some_inj] at herr
      exact Or.inl herr

/-- Witness for C8: the demo agent is `IDLE`, so even a failing health check
(`unhealthy` outcome) leaves it untouched — no auto-demotion outside
`RUNNING`. -/
theorem claim_C8_health_sweep_witness :
    dictGet 7 (demoExecRegistry.perform_health_checks
        (fun _ => HealthOutcome.unhealthy) 5).agents =
      some (demoAgent 7 AgentType.code_analysis 0 0 none) := by
  obtain ⟨-, h2, -⟩ := claim_C8_health_sweep demoExecRegistry
    (fun _ => HealthOutcome.unhealthy) 5 7
    (demoAgent 7 AgentType.code_analysis 0 0 none) (by decide) (by decide)
  exact h2 (by decide)

/-- C9: `last_execution_time` is only written on the success path: any run
of failing calls leaves it exactly as it was; consequently an agent whose
last *successful* execution is older than the threshold is removed by
`cleanup_stale_agents` even immediately after recent failing calls. -/
theorem claim_C9_last_execution_frame (r : AgentRegistry) (agent_id : Nat)
    (a : AgentMetadata) (inst : AgentInstance) (task_type err : String)
    (t now : ℚ)
    (ha : dictGet agent_id r.agents = some a)
    (hi : dictGet agent_id r.instances = some inst)
    (he : inst.has_execute_task = true) :
    (∀ n : Nat, ∃ a',
      dictGet agent_id
        (iterate_exec agent_id task_type (Except.error err) t now n r).agents
          = some a' ∧
      a'.last_execution_time = a.last_execution_time) ∧
    (∀ (env : TaskEnvelope) (r1 : AgentRegistry),
      r.execute_agent_task agent_id task_type (Except.error err) t now =
        Except.ok (env, r1) →
      (r.agents.map Prod.fst).Nodup →
      ∀ (th : ℚ) (now2 : DateTime) (t0 : ℚ),
        a.last_execution_time = some t0 → now2 - t0 > th →
        dictGet agent_id (r1.cleanup_stale_agents th now2).agents = none) := by
  constructor
  · intro n
    obtain ⟨a', hget, -, -, -, h4⟩ :=
      iterate_fail_spec agent_id task_type err t now n r a inst ha hi he
    exact ⟨a', hget, h4⟩
  · intro env r1 hexec hnd th now2 t0 ht0 hgt
    obtain ⟨r1', hres, hself, -, -, -, hkeys⟩ :=
      execute_fail_spec r task_type err t now ha hi he
    rw [hexec] at hres
    have hr1 : r1 = r1' := congrArg Prod.snd (Except.ok.inj hres)
    rw [hr1]
    have hnd1 : (r1'.agents.map Prod.fst).Nodup := hkeys ▸ hnd
    have hstale : isStale th now2 { a with
        total_executions := a.total_executions + 1
        failed_executions := a.failed_executions + 1
        status := AgentStatus.idle
        updated_at := now } = true := by
      simp only [isStale, ht0, decide_eq_true_eq]
      exact hgt
    cases hcase : dictGet agent_id (r1'.cleanup_stale_agents th now2).agents
      with
    | none => rfl
    | some x =>
      exfalso
      rw [cleanup_agents_eq r1' th now2 hnd1] at hcase
      have hnd2 : ((r1'.agents.filter fun p =>
          !(isStale th now2 p.2)).map Prod.fst).Nodup :=
        ((List.filter_sublist r1'.agents).map Prod.fst).nodup hnd1
      have hx := (dictGet_eq_some_iff_mem hnd2).mp hcase
      obtain ⟨hxmem, hxkeep⟩ := List.mem_filter.mp hx
      have hxget : dictGet agent_id r1'.agents = some x :=
        (dictGet_eq_some_iff_mem hnd1).mpr hxmem
      rw [hself] at hxget
      rw [(Option.some_inj.mp hxget).symm, hstale] at hxkeep
      simp at hxkeep

/-- Witness for C9: two failing calls on the agent whose only success was at
time 2800 leave `last_execution_time` at 2800. -/
theorem claim_C9_last_execution_frame_witness :
    (dictGet 7 (iterate_exec 7 "analyze" (Except.error "boom") 2 9000 2
        demoFailRegistry).agents).map AgentMetadata.last_execution_time =
      some (some 2800) := by
  obtain ⟨hiter, -⟩ := claim_C9_last_execution_frame demoFailRegistry 7
    (demoAgent 7 AgentType.code_analysis 1 1 (some 2800)) demoInstance
    "analyze" "boom" 2 9000 (by decide) (by decide) rfl
  obtain ⟨a', hget, hlast⟩ := hiter 2
  rw [hget]
  simp [hlast, demoAgent]

/-- C10: the `success_rate` computed by `AgentMetadata.to_dict` and the
registry `health_check` is always defined — the divisor `max 1
total_executions` is never zero — and an agent with zero executions (whence
zero successes) reports a `success_rate` of 0; freshly registered metadata
reports exactly 0. -/
theorem claim_C10_success_rate :
    (∀ a : AgentMetadata, ((max 1 a.total_executions : Nat) : ℚ) ≠ 0) ∧
    (∀ a : AgentMetadata, a.total_executions = 0 →
      a.successful_executions = 0 → a.success_rate = 0) ∧
    (∀ (r : AgentRegistry) (inst : AgentInstance) (now : DateTime),
      (∀ p ∈ r.agents, p.1 < r.next_uuid) →
      (∀ p ∈ r.instances, p.1 < r.next_uuid) →
      (dictGet (r.register_agent inst now).1
          (r.register_agent inst now).2.agents).map
        AgentMetadata.success_rate = some 0) := by
  refine ⟨?_, ?_, ?_⟩
  · intro a
    have h1 : 1 ≤ max 1 a.total_executions := le_max_left _ _
    exact Nat.cast_ne_zero.mpr (by omega)
  · intro a h1 h2
    unfold AgentMetadata.success_rate
    rw [h2]
    simp
  · intro r inst now hinv hinv2
    obtain ⟨-, -, hget, -, -, -⟩ := register_agent_spec r inst now hinv hinv2
    rw [hget]
    simp [AgentMetadata.success_rate]

/-- Witness for C10: a fresh zero-execution metadata record has a positive
divisor and reports `success_rate = 0`. -/
theorem claim_C10_success_rate_witness :
    ((max 1 (demoAgent 9 AgentType.custom 0 0 none).total_executions :
      Nat) : ℚ) ≠ 0 ∧
    (demoAgent 9 AgentType.custom 0 0 none).success_rate = 0 :=
  ⟨claim_C10_success_rate.1 _, claim_C10_success_rate.2.1 _ rfl rfl⟩
